import Mathlib

/-
Verification of the stratastor/logger package (logger.go): a structured
logging facade that multiplexes records to a JSON sink and, optionally,
to a Sentry remote sink.  The handlers are embedded shallowly: each
handler produces a trace of observable effects (JSON emissions, Sentry
captures) together with an optional error, mirroring the Go control
flow of logger.go line by line.
-/

namespace StratastorLogger

/-- slog.LevelDebug = -4. -/
def LevelDebug : Int := -4

/-- slog.LevelInfo = 0. -/
def LevelInfo : Int := 0

/-- slog.LevelWarn = 4. -/
def LevelWarn : Int := 4

/-- slog.LevelError = 8. -/
def LevelError : Int := 8

/-- The Sentry severity vocabulary (sentry.Level). -/
inductive SentryLevel where
  | debug
  | info
  | warning
  | error
  | fatal
deriving DecidableEq, Repr

/-- slogToSentryLevel (logger.go lines 124-137): switch on the slog level,
defaulting to info. -/
def slogToSentryLevel (level : Int) : SentryLevel :=
  if level = LevelDebug then SentryLevel.debug
  else if level = LevelInfo then SentryLevel.info
  else if level = LevelWarn then SentryLevel.warning
  else if level = LevelError then SentryLevel.error
  else SentryLevel.info

/-- A slog.Record: severity level, message, and its attributes in the
order the record exposes them.  Attribute values are modelled as strings. -/
structure Record where
  Level : Int
  Message : String
  Attrs : List (String × String)
deriving DecidableEq, Repr

/-- Errors returned by handlers (Go error values), modelled as strings. -/
abbrev Err := String

/-- One map update `attrs[k] = v` (last write wins on duplicate keys),
modelling the Go map assignment in sentryHandler.Handle lines 102-106. -/
def setExtra (m : List (String × String)) (k v : String) : List (String × String) :=
  if m.any fun p => p.1 = k then
    m.map fun p => if p.1 = k then (k, v) else p
  else m ++ [(k, v)]

/-- Collect all record attributes into a flat key-to-value mapping
(record.Attrs iteration in logger.go lines 102-106). -/
def collectAttrs (attrs : List (String × String)) : List (String × String) :=
  attrs.foldl (fun m a => setExtra m a.1 a.2) []

/-- Observable effects of handling a record. -/
inductive Effect where
  /-- The JSON sink wrote one line: its stored attributes plus the record
  attributes, and the message (external slog JSONHandler, per spec section 6). -/
  | jsonEmit (attrs : List (String × String)) (msg : String)
  /-- sentry.CaptureMessage inside sentry.WithScope with the mapped level and
  the collected extras (logger.go lines 109-115). -/
  | sentryCapture (lvl : SentryLevel) (msg : String) (extras : List (String × String))
  /-- An uninterpreted effect of an arbitrary external handler (test double). -/
  | ext (id : Nat)
deriving DecidableEq, Repr

/-- The slog.Handler values occurring in this package:
the external JSON handler (modelled from the spec: a sink at a fixed
threshold with source capture, whose derived attributes are emitted with
every record), the sentryHandler (next chain, minLogLevel), the
combinedHandler, and an arbitrary external handler given by its
enabled and handle functions (used to quantify over downstream chains
and branches, which the Go code types as the slog.Handler interface). -/
inductive Handler where
  | json (level : Int) (addSource : Bool) (attrs : List (String × String))
      (groups : List String)
  | sentry (next : Option Handler) (minLogLevel : Int)
  | combined (jsonHandler : Handler) (sentryHandler : Handler)
  | ext (enabledFn : Int → Bool) (handleFn : Record → List Effect × Option Err)

/-- Handle, for every handler variant, returning the effect trace and the
returned error.

sentryHandler.Handle (logger.go lines 93-121) is transcribed by cases on
`next`: when `next` is nil the below-threshold guard at line 95 encloses
no statement that executes (the early return at line 97 is itself guarded
by `h.next != nil`), so control always falls through to the Sentry capture
at lines 109-115 and returns nil at line 120; when `next` is non-nil, a
below-threshold record is passed to `next` at line 97 and otherwise the
capture happens before `next.Handle` at line 118.

combinedHandler.Handle (lines 167-176) runs the JSON branch, returns its
error if any, and otherwise runs the Sentry branch and returns its result. -/
def Handler.handle : Handler → Record → List Effect × Option Err
  | Handler.json _ _ as _, r =>
      ([Effect.jsonEmit (as ++ r.Attrs) r.Message], none)
  | Handler.sentry none _, r =>
      ([Effect.sentryCapture (slogToSentryLevel r.Level) r.Message
          (collectAttrs r.Attrs)], none)
  | Handler.sentry (some nh) minLogLevel, r =>
      if r.Level < minLogLevel then
        nh.handle r
      else
        let res := nh.handle r
        (Effect.sentryCapture (slogToSentryLevel r.Level) r.Message
            (collectAttrs r.Attrs) :: res.1, res.2)
  | Handler.combined j s, r =>
      let resJ := j.handle r
      match resJ.2 with
      | some err => (resJ.1, some err)
      | none =>
          let resS := s.handle r
          (resJ.1 ++ resS.1, resS.2)
  | Handler.ext _ hf, r => hf r

/-- Enabled: the JSON handler per its HandlerOptions level, the
sentryHandler per `level >= h.minLogLevel` (logger.go lines 140-142), the
combinedHandler per the OR of its branches (lines 179-181). -/
def Handler.enabled : Handler → Int → Bool
  | Handler.json lvl _ _ _, l => decide (lvl ≤ l)
  | Handler.sentry _ minLogLevel, l => decide (minLogLevel ≤ l)
  | Handler.combined j s, l => j.enabled l || s.enabled l
  | Handler.ext ef _, l => ef l

/-- WithAttrs: sentryHandler.WithAttrs (lines 145-150) rebuilds the adapter
from `next` and `minLogLevel` only, dropping the supplied attributes;
combinedHandler.WithAttrs (lines 184-189) derives both branches; the JSON
handler stores the attributes (external slog behaviour, per spec). -/
def Handler.withAttrs : Handler → List (String × String) → Handler
  | Handler.json lvl src as gs, attrs => Handler.json lvl src (as ++ attrs) gs
  | Handler.sentry next minLogLevel, _ => Handler.sentry next minLogLevel
  | Handler.combined j s, attrs =>
      Handler.combined (j.withAttrs attrs) (s.withAttrs attrs)
  | Handler.ext ef hf, _ => Handler.ext ef hf

/-- WithGroup: sentryHandler.WithGroup (lines 153-158) drops the group name;
combinedHandler.WithGroup (lines 192-197) derives both branches; the JSON
handler records the group (external slog behaviour, per spec). -/
def Handler.withGroup : Handler → String → Handler
  | Handler.json lvl src as gs, g => Handler.json lvl src as (gs ++ [g])
  | Handler.sentry next minLogLevel, _ => Handler.sentry next minLogLevel
  | Handler.combined j s, g => Handler.combined (j.withGroup g) (s.withGroup g)
  | Handler.ext ef hf, _ => Handler.ext ef hf

/-- A slog.Logger: the handler it was constructed over. -/
structure Logger where
  handler : Handler

/-- slog.Logger.With: a logger over the handler derived with the attributes. -/
def Logger.With (l : Logger) (attrs : List (String × String)) : Logger :=
  Logger.mk (l.handler.withAttrs attrs)

/-- Config (logger.go lines 17-21). -/
structure Config where
  LogLevel : String
  SentryDSN : String
  EnableSentry : Bool
deriving DecidableEq, Repr

/-- sentry.ClientOptions as built by New (lines 57-61). -/
structure ClientOptions where
  Dsn : String
  EnableTracing : Bool
  TracesSampleRate : ℚ
deriving DecidableEq, Repr

/-- The level switch of New (logger.go lines 26-37). -/
def newLogLevel (s : String) : Int :=
  match s with
  | "debug" => LevelDebug
  | "info" => LevelInfo
  | "warn" => LevelWarn
  | "error" => LevelError
  | _ => LevelInfo

/-- The JSON handler New constructs (lines 39-44): the mapped level,
AddSource true, no derived attributes or groups yet. -/
def newJsonHandler (config : Config) : Handler :=
  Handler.json (newLogLevel config.LogLevel) true [] []

/-- The client options New passes to sentry.Init (lines 57-61). -/
def newClientOptions (config : Config) : ClientOptions :=
  { Dsn := config.SentryDSN, EnableTracing := true, TracesSampleRate := 5 / 100 }

/-- New (logger.go lines 24-71).  sentry.Init is external; it is a
parameter giving the error, if any, for the supplied options.  The
sentryHandler is built with nil next and minLogLevel warn (lines 45-48). -/
def New (sentryInit : ClientOptions → Option Err) (config : Config) :
    Except Err Logger :=
  let jsonHandler := newJsonHandler config
  let sentryHandlerV := Handler.sentry none LevelWarn
  let combinedHandlerV := Handler.combined jsonHandler sentryHandlerV
  if config.EnableSentry = true ∧ config.SentryDSN ≠ "" then
    match sentryInit (newClientOptions config) with
    | some err => Except.error ("sentry.Init failed: " ++ err)
    | none => Except.ok (Logger.mk combinedHandlerV)
  else
    Except.ok (Logger.mk jsonHandler)

/-- NewTag (logger.go lines 74-84): New, then With of the single
attribute slog.String "tag" tag. -/
def NewTag (sentryInit : ClientOptions → Option Err) (config : Config)
    (tag : String) : Except Err Logger :=
  match New sentryInit config with
  | Except.error e => Except.error e
  | Except.ok logger => Except.ok (logger.With [("tag", tag)])

/-- Is the handler the fan-out (combinedHandler)? -/
def Handler.isCombined : Handler → Bool
  | Handler.combined _ _ => true
  | _ => false

/-- The threshold of the JSON branch of a handler, when it has one. -/
def Handler.jsonLevel : Handler → Option Int
  | Handler.json lvl _ _ _ => some lvl
  | Handler.combined j _ => j.jsonLevel
  | _ => none

/-- Claim C4: slogToSentryLevel maps debug to debug, info to info, warn to
warning, error to error, and every other input to info.  It is a total Lean
function, hence pure and total. -/
theorem slogToSentryLevel_spec :
    slogToSentryLevel LevelDebug = SentryLevel.debug ∧
    slogToSentryLevel LevelInfo = SentryLevel.info ∧
    slogToSentryLevel LevelWarn = SentryLevel.warning ∧
    slogToSentryLevel LevelError = SentryLevel.error ∧
    ∀ l : Int, l ≠ LevelDebug → l ≠ LevelInfo → l ≠ LevelWarn → l ≠ LevelError →
      slogToSentryLevel l = SentryLevel.info := by
  refine ⟨rfl, rfl, rfl, rfl, ?_⟩
  intro l h1 h2 h3 h4
  simp only [slogToSentryLevel, if_neg h1, if_neg h2, if_neg h3, if_neg h4]

/-- Witness for C4: the unmapped level 100 maps to info. -/
theorem slogToSentryLevel_spec_witness :
    slogToSentryLevel 100 = SentryLevel.info :=
  slogToSentryLevel_spec.2.2.2.2 100 (by decide) (by decide) (by decide)
    (by decide)

/-- Claim C6: combinedHandler.Enabled is the boolean OR of the two branches. -/
theorem combinedHandler_enabled_or (j s : Handler) (l : Int) :
    (Handler.combined j s).enabled l = (j.enabled l || s.enabled l) := rfl

/-- Claim C7: sentryHandler.WithAttrs and sentryHandler.WithGroup return an
adapter with the same threshold and the same chain reference, retaining
neither the attributes nor the group name: the result is the original
adapter value itself, independent of the arguments (and, the embedding
being pure, the original is unchanged). -/
theorem sentryHandler_withAttrs_withGroup_spec (next : Option Handler)
    (m : Int) (attrs : List (String × String)) (g : String) :
    (Handler.sentry next m).withAttrs attrs = Handler.sentry next m ∧
    (Handler.sentry next m).withGroup g = Handler.sentry next m :=
  ⟨rfl, rfl⟩

/-- Claim C1 (code bug): a record below the threshold with no chained
handler IS submitted to Sentry — the early return at logger.go line 97 is
guarded by `h.next != nil`, so with nil next control falls through to the
capture; with a chained handler the record is only forwarded, as claimed.
Here: a debug record against the adapter New builds (next nil, threshold
warn) is captured, while the same record with a chain is only forwarded. -/
theorem sentryHandler_below_threshold_capture_bug :
    (Handler.sentry none LevelWarn).handle
        (Record.mk LevelDebug "boot" []) =
      ([Effect.sentryCapture SentryLevel.debug "boot" []], none) ∧
    (Handler.sentry
        (some (Handler.ext (fun _ => true) (fun _ => ([Effect.ext 7], none))))
        LevelWarn).handle (Record.mk LevelDebug "boot" []) =
      ([Effect.ext 7], none) :=
  ⟨rfl, rfl⟩

/-- Claim C8: for a record at or above the threshold, the adapter captures
the message and its only possible error is the one returned by the chained
handler, verbatim; with no chain it returns success (nil). -/
theorem sentryHandler_handle_at_or_above (next : Option Handler) (m : Int)
    (r : Record) (h : m ≤ r.Level) :
    (Handler.sentry next m).handle r =
      (Effect.sentryCapture (slogToSentryLevel r.Level) r.Message
          (collectAttrs r.Attrs) ::
        (next.elim [] fun nh => (nh.handle r).1),
       next.elim none fun nh => (nh.handle r).2) := by
  cases next with
  | none => rfl
  | some nh =>
      have hlt : ¬ r.Level < m := not_lt.mpr h
      simp only [Handler.handle, if_neg hlt, Option.elim]

/-- Witness for C8: an error record, threshold warn, no chain: captured at
Sentry level error, returning success. -/
theorem sentryHandler_handle_at_or_above_witness :
    (Handler.sentry none LevelWarn).handle (Record.mk LevelError "w" []) =
      ([Effect.sentryCapture SentryLevel.error "w" []], none) :=
  sentryHandler_handle_at_or_above none LevelWarn
    (Record.mk LevelError "w" []) (by decide)

/-- Claim C2: combinedHandler.Handle invokes the JSON branch first (its
effects precede any others); if the JSON branch errors, that error is
returned at once and the remote branch contributes nothing; otherwise the
remote branch runs and its result is returned. -/
theorem combinedHandler_handle_spec (j s : Handler) (r : Record) :
    ((j.handle r).2 = none →
      (Handler.combined j s).handle r =
        ((j.handle r).1 ++ (s.handle r).1, (s.handle r).2)) ∧
    (∀ e : Err, (j.handle r).2 = some e →
      (Handler.combined j s).handle r = ((j.handle r).1, some e)) := by
  constructor
  · intro h
    simp only [Handler.handle, h]
  · intro e h
    simp only [Handler.handle, h]

/-- Witness for C2: with a succeeding JSON double both branches run in
order; with a failing JSON double the error comes back and the remote
double is never invoked. -/
theorem combinedHandler_handle_spec_witness :
    (Handler.combined (Handler.ext (fun _ => true) (fun _ => ([Effect.ext 1], none)))
        (Handler.ext (fun _ => true) (fun _ => ([Effect.ext 2], none)))).handle
        (Record.mk LevelError "m" []) = ([Effect.ext 1, Effect.ext 2], none) ∧
    (Handler.combined (Handler.ext (fun _ => true) (fun _ => ([], some "boom")))
        (Handler.ext (fun _ => true) (fun _ => ([Effect.ext 2], none)))).handle
        (Record.mk LevelError "m" []) = ([], some "boom") :=
  ⟨(combinedHandler_handle_spec _ _ _).1 rfl,
   (combinedHandler_handle_spec _ _ _).2 "boom" rfl⟩

/-- Claim C3: New returns the fan-out logger exactly when EnableSentry is
true and the DSN is non-empty (and init succeeds), otherwise the JSON-only
logger; and it errors if and only if sentry.Init fails, which is the only
failure path. -/
theorem New_spec (sentryInit : ClientOptions → Option Err) (config : Config) :
    (config.EnableSentry = true ∧ config.SentryDSN ≠ "" →
      New sentryInit config =
        match sentryInit (newClientOptions config) with
        | some e => Except.error ("sentry.Init failed: " ++ e)
        | none =>
            Except.ok (Logger.mk (Handler.combined (newJsonHandler config)
              (Handler.sentry none LevelWarn)))) ∧
    (¬ (config.EnableSentry = true ∧ config.SentryDSN ≠ "") →
      New sentryInit config = Except.ok (Logger.mk (newJsonHandler config))) ∧
    ((∃ e, New sentryInit config = Except.error e) ↔
      config.EnableSentry = true ∧ config.SentryDSN ≠ "" ∧
        ∃ e, sentryInit (newClientOptions config) = some e) ∧
    (∀ l, New sentryInit config = Except.ok l →
      (l.handler.isCombined = true ↔
        config.EnableSentry = true ∧ config.SentryDSN ≠ "")) := by
  by_cases hc : config.EnableSentry = true ∧ config.SentryDSN ≠ ""
  · cases hi : sentryInit (newClientOptions config) with
    | some e =>
        have hN : New sentryInit config =
            Except.error ("sentry.Init failed: " ++ e) := by
          unfold New; rw [if_pos hc, hi]
        refine ⟨fun _ => ?_, fun h => absurd hc h, ?_, ?_⟩
        · rw [hN]
        · constructor
          · intro _; exact ⟨hc.1, hc.2, e, rfl⟩
          · intro _; exact ⟨_, hN⟩
        · intro l hl; rw [hN] at hl; exact absurd hl (by simp)
    | none =>
        have hN : New sentryInit config =
            Except.ok (Logger.mk (Handler.combined (newJsonHandler config)
              (Handler.sentry none LevelWarn))) := by
          unfold New; rw [if_pos hc, hi]
        refine ⟨fun _ => ?_, fun h => absurd hc h, ?_, ?_⟩
        · rw [hN]
        · constructor
          · rintro ⟨e, he⟩; rw [hN] at he; exact absurd he (by simp)
          · rintro ⟨-, -, e, he⟩; exact absurd he (by simp)
        · intro l hl
          rw [hN] at hl
          injection hl with h
          refine iff_of_true ?_ hc
          rw [← h]
          rfl
  · have hN : New sentryInit config =
        Except.ok (Logger.mk (newJsonHandler config)) := by
      unfold New; rw [if_neg hc]
    refine ⟨fun h => absurd h hc, fun _ => hN, ?_, ?_⟩
    · constructor
      · rintro ⟨e, he⟩; rw [hN] at he; exact absurd he (by simp)
      · rintro ⟨h1, h2, -⟩; exact absurd ⟨h1, h2⟩ hc
    · intro l hl
      rw [hN] at hl
      injection hl with h
      refine iff_of_false ?_ hc
      rw [← h]
      simp [newJsonHandler, Handler.isCombined]

/-- Witness for C3: enabled with non-empty DSN and succeeding init gives
the fan-out logger; empty DSN gives the JSON-only logger; failing init
gives an error. -/
theorem New_spec_witness :
    New (fun _ => none) (Config.mk "info" "d" true) =
      Except.ok (Logger.mk (Handler.combined
        (newJsonHandler (Config.mk "info" "d" true))
        (Handler.sentry none LevelWarn))) ∧
    New (fun _ => none) (Config.mk "info" "" true) =
      Except.ok (Logger.mk (newJsonHandler (Config.mk "info" "" true))) ∧
    (∃ e, New (fun _ => some "bad") (Config.mk "info" "d" true) =
      Except.error e) := by
  refine ⟨?_, ?_, ?_⟩
  · exact (New_spec (fun _ => none) (Config.mk "info" "d" true)).1
      ⟨rfl, by decide⟩
  · exact (New_spec (fun _ => none) (Config.mk "info" "" true)).2.1 (by simp)
  · exact (New_spec (fun _ => some "bad") (Config.mk "info" "d" true)).2.2.1.mpr
      ⟨rfl, by decide, "bad", rfl⟩

/-- Claim C5: an unrecognized level string yields the same threshold as
"info", both in the level switch and on the JSON branch of the logger New
returns. -/
theorem New_unrecognized_level_info (sentryInit : ClientOptions → Option Err)
    (config : Config)
    (h : config.LogLevel ≠ "debug" ∧ config.LogLevel ≠ "info" ∧
         config.LogLevel ≠ "warn" ∧ config.LogLevel ≠ "error") :
    newLogLevel config.LogLevel = newLogLevel "info" ∧
    ∀ l, New sentryInit config = Except.ok l →
      l.handler.jsonLevel = some (newLogLevel "info") := by
  have h1 : newLogLevel config.LogLevel = LevelInfo := by
    unfold newLogLevel
    split
    · exact absurd (by assumption) h.1
    · exact absurd (by assumption) h.2.1
    · exact absurd (by assumption) h.2.2.1
    · exact absurd (by assumption) h.2.2.2
    · rfl
  refine ⟨h1, ?_⟩
  intro l hl
  unfold New at hl
  by_cases hc : config.EnableSentry = true ∧ config.SentryDSN ≠ ""
  · rw [if_pos hc] at hl
    cases hi : sentryInit (newClientOptions config) with
    | some e => rw [hi] at hl; exact absurd hl (by simp)
    | none =>
        rw [hi] at hl
        injection hl with h2
        rw [← h2]
        simp only [Handler.jsonLevel, newJsonHandler, h1]
        rfl
  · rw [if_neg hc] at hl
    injection hl with h2
    rw [← h2]
    simp only [Handler.jsonLevel, newJsonHandler, h1]
    rfl

/-- Witness for C5: the unrecognized level string "verbose" defaults to the
"info" threshold, and the JSON-only logger built from it carries it. -/
theorem New_unrecognized_level_info_witness :
    newLogLevel "verbose" = newLogLevel "info" ∧
    (Logger.mk (newJsonHandler (Config.mk "verbose" "" false))).handler.jsonLevel =
      some (newLogLevel "info") := by
  have h := New_unrecognized_level_info (fun _ => none)
      (Config.mk "verbose" "" false) ⟨by decide, by decide, by decide, by decide⟩
  exact ⟨h.1, h.2 _ rfl⟩

/-- Claim C10: with EnableSentry true, a non-empty DSN and a successful
init, the handler of the returned logger is enabled for warn and error
whatever the level string: the remote branch threshold is fixed at warn
and combinedHandler.Enabled is the OR of the branches. -/
theorem New_remote_enabled_levels (sentryInit : ClientOptions → Option Err)
    (config : Config) (l : Logger)
    (h1 : config.EnableSentry = true) (h2 : config.SentryDSN ≠ "")
    (hok : New sentryInit config = Except.ok l) :
    l.handler.enabled LevelWarn = true ∧ l.handler.enabled LevelError = true := by
  unfold New at hok
  rw [if_pos ⟨h1, h2⟩] at hok
  cases hi : sentryInit (newClientOptions config) with
  | some e => rw [hi] at hok; exact absurd hok (by simp)
  | none =>
      rw [hi] at hok
      injection hok with h3
      rw [← h3]
      refine ⟨?_, ?_⟩
      · show (_ || decide (LevelWarn ≤ LevelWarn)) = true
        rw [show decide (LevelWarn ≤ LevelWarn) = true from rfl, Bool.or_true]
      · show (_ || decide (LevelWarn ≤ LevelError)) = true
        rw [show decide (LevelWarn ≤ LevelError) = true from rfl, Bool.or_true]

/-- Witness for C10: configured level "error", remote enabled: the fan-out
handler is enabled for warn and error. -/
theorem New_remote_enabled_levels_witness :
    (Logger.mk (Handler.combined (newJsonHandler (Config.mk "error" "d" true))
        (Handler.sentry none LevelWarn))).handler.enabled LevelWarn = true ∧
    (Logger.mk (Handler.combined (newJsonHandler (Config.mk "error" "d" true))
        (Handler.sentry none LevelWarn))).handler.enabled LevelError = true :=
  New_remote_enabled_levels (fun _ => none) (Config.mk "error" "d" true) _
    rfl (by decide) rfl

/-- The logger New returns is backed either by the fan-out of the JSON
handler and the nil-chained warn-threshold adapter, or by the JSON
handler alone. -/
theorem New_ok_shape (sentryInit : ClientOptions → Option Err) (config : Config)
    (l : Logger) (hok : New sentryInit config = Except.ok l) :
    l.handler = Handler.combined (newJsonHandler config)
        (Handler.sentry none LevelWarn) ∨
    l.handler = newJsonHandler config := by
  unfold New at hok
  by_cases hc : config.EnableSentry = true ∧ config.SentryDSN ≠ ""
  · rw [if_pos hc] at hok
    cases hi : sentryInit (newClientOptions config) with
    | some e => rw [hi] at hok; exact absurd hok (by simp)
    | none =>
        rw [hi] at hok
        injection hok with h
        exact Or.inl (by rw [← h])
  · rw [if_neg hc] at hok
    injection hok with h
    exact Or.inr (by rw [← h])

/-- Claim C9: NewTag fails exactly as New does, propagating the same
error; on success it returns the logger of New derived with the single
attribute ("tag", tag), and every record handled by that logger emits a
JSON line containing that attribute. -/
theorem NewTag_spec (sentryInit : ClientOptions → Option Err) (config : Config)
    (tag : String) :
    (∀ e, New sentryInit config = Except.error e →
      NewTag sentryInit config tag = Except.error e) ∧
    (∀ l, New sentryInit config = Except.ok l →
      NewTag sentryInit config tag = Except.ok (l.With [("tag", tag)]) ∧
      ∀ r : Record, ∃ out,
        Effect.jsonEmit out r.Message ∈
          ((l.With [("tag", tag)]).handler.handle r).1 ∧
        ("tag", tag) ∈ out) := by
  constructor
  · intro e he
    unfold NewTag
    rw [he]
  · intro l hl
    refine ⟨by unfold NewTag; rw [hl], ?_⟩
    intro r
    refine ⟨("tag", tag) :: r.Attrs, ?_, List.mem_cons_self _ _⟩
    rcases New_ok_shape sentryInit config l hl with hs | hs <;>
      simp [Logger.With, hs, newJsonHandler, Handler.withAttrs, Handler.handle]

/-- Witness for C9: a failing init propagates through NewTag; a JSON-only
configuration yields the tagged logger, and a concrete record emits a
JSON line carrying ("tag", "X"). -/
theorem NewTag_spec_witness :
    NewTag (fun _ => some "bad") (Config.mk "info" "d" true) "X" =
      Except.error ("sentry.Init failed: " ++ "bad") ∧
    NewTag (fun _ => none) (Config.mk "info" "" false) "X" =
      Except.ok ((Logger.mk (newJsonHandler (Config.mk "info" "" false))).With
        [("tag", "X")]) ∧
    (∃ out,
      Effect.jsonEmit out "hello" ∈
        (((Logger.mk (newJsonHandler (Config.mk "info" "" false))).With
            [("tag", "X")]).handler.handle (Record.mk LevelInfo "hello" [])).1 ∧
      ("tag", "X") ∈ out) := by
  have h2 := (NewTag_spec (fun _ => none) (Config.mk "info" "" false) "X").2 _ rfl
  exact ⟨(NewTag_spec (fun _ => some "bad") (Config.mk "info" "d" true) "X").1
      ("sentry.Init failed: " ++ "bad") rfl,
    h2.1, h2.2 (Record.mk LevelInfo "hello" [])⟩

end StratastorLogger
